import Mathlib

/-!
Shallow embedding of the event-planner backend (Express + Prisma + Socket.IO).

The embedded code is `src/routes/events.js` (the event registry: list
pagination and filtering, create, update, delete, join, leave) together with
the Socket.IO room subscription handler of `src/index.js`.  Persistence is
modelled as a list of event records; each route handler becomes a pure
function from the stored state and the authenticated caller to a result,
the new stored state, and the list of Socket.IO broadcasts it emitted.
-/

namespace EventPlanner

abbrev UserId := String
abbrev EventId := String

/-- One stored Event row, with its many-to-many attendee relation flattened to
the list of attendee user ids (the route handlers only ever read attendee ids
for membership checks; name/email are display projections of the same rows). -/
structure Event where
  id : EventId
  title : String
  description : String
  date : Nat
  location : String
  category : String
  coverUrl : String
  imagesUrl : List String
  creatorId : UserId
  attendees : List UserId
deriving Repr, DecidableEq

/-- The persisted store: the table of events. -/
abbrev DB := List Event

/-- `prisma.event.findUnique({ where: { id } })`: point lookup by id. -/
def findE : DB → EventId → Option Event
  | [], _ => none
  | e :: es, eid => if e.id = eid then some e else findE es eid

/-- Persisting an updated row: every row with the same id is replaced. -/
def saveE : DB → Event → DB
  | [], _ => []
  | x :: xs, e => (if x.id = e.id then e else x) :: saveE xs e

/-- Error outcomes a handler can answer with.  `NotFound` is the 404 path,
`Forbidden` the 403 "Not authorized" path, `AlreadyMember` the 400
"Already joined" path, and `Internal` the generic `next(error)` path that the
Express default error handler surfaces as a 500. -/
inductive ApiError where
  | NotFound
  | Forbidden
  | AlreadyMember
  | Internal
deriving Repr, DecidableEq

/-- Where a Socket.IO emit is addressed: `io.emit(...)` is global,
`io.to(room).emit(...)` is scoped to one event room. -/
inductive Scope where
  | global
  | room (eventId : EventId)
deriving Repr, DecidableEq

/-- The payload of a broadcast: either a full event record or a bare id. -/
inductive Payload where
  | event (e : Event)
  | id (i : EventId)
deriving Repr, DecidableEq

/-- One Socket.IO broadcast issued by a handler. -/
structure Broadcast where
  scope : Scope
  name : String
  payload : Payload
deriving Repr, DecidableEq

/-- Outcome of one mutating route handler: the HTTP-level result, the stored
state after the call, and the broadcasts emitted during the call in order. -/
structure OpResult (α : Type) where
  res : Except ApiError α
  db : DB
  emits : List Broadcast
deriving Repr

/-- The room key used by both `index.js` (`socket.join`) and the emitting
handlers: `event:` followed by the event id. -/
def roomName (eid : EventId) : String := "event:" ++ eid

/-- A connected Socket.IO client, reduced to the set of rooms it has joined. -/
structure Client where
  rooms : List String
deriving Repr, DecidableEq

/-- The `joinEvent` socket handler in `index.js`: the client subscribes to the
room of the named event. -/
def handleJoinEvent (c : Client) (eid : EventId) : Client :=
  { c with rooms := c.rooms ++ [roomName eid] }

/-- Modelled from the spec: Socket.IO delivery semantics for the two emit
forms the handlers use.  A global emit reaches every connected client; a
room-scoped emit reaches exactly the clients that joined that room. -/
def deliveredTo (c : Client) (b : Broadcast) : Bool :=
  match b.scope with
  | Scope.global => true
  | Scope.room eid => decide (roomName eid ∈ c.rooms)

/-- The body of a valid (already validated) create/update request.  For the
create route every field is present; the update route uses `EventPatch`. -/
structure EventData where
  title : String
  description : String
  date : Nat
  location : String
  category : String
  coverUrl : String
  imagesUrl : List String
deriving Repr, DecidableEq

/-- A validated body for `PUT /:id` (`eventSchema.partial()`): every field is
optional and only present fields are applied. -/
structure EventPatch where
  title : Option String := none
  description : Option String := none
  date : Option Nat := none
  location : Option String := none
  category : Option String := none
  coverUrl : Option String := none
  imagesUrl : Option (List String) := none
deriving Repr, DecidableEq

/-- `prisma.event.update({ data: { ...req.body, date: ... } })` on a partial
body: a present field overwrites, an absent field (spread as nothing,
`undefined` for date) leaves the stored value; id, creator and attendees are
not part of the update data and keep their stored values. -/
def applyPatch (e : Event) (p : EventPatch) : Event :=
  { e with
    title := p.title.getD e.title
    description := p.description.getD e.description
    date := p.date.getD e.date
    location := p.location.getD e.location
    category := p.category.getD e.category
    coverUrl := p.coverUrl.getD e.coverUrl
    imagesUrl := p.imagesUrl.getD e.imagesUrl }

/-- The record built by `prisma.event.create` in `router.post("/")`: the body
fields, creator connected to the authenticated caller, no attendees. -/
def newEventRecord (callerUserId : UserId) (newId : EventId) (d : EventData) : Event :=
  { id := newId
    title := d.title
    description := d.description
    date := d.date
    location := d.location
    category := d.category
    coverUrl := d.coverUrl
    imagesUrl := d.imagesUrl
    creatorId := callerUserId
    attendees := [] }

/-- `router.post("/")`: persist the new event, then `io.emit("newEvent", event)`
globally, then answer 201 with the event.  `newId` stands for the id the store
generates; the route itself cannot fail once the body is validated. -/
def createEvent (db : DB) (callerUserId : UserId) (newId : EventId) (d : EventData) :
    OpResult Event :=
  let e := newEventRecord callerUserId newId d
  ⟨Except.ok e, db ++ [e], [⟨Scope.global, "newEvent", Payload.event e⟩]⟩

/-- `router.put("/:id")`: look the event up (404 if absent), then check
ownership (403 if the caller is not the creator), then apply the partial body
and emit `eventUpdated` to the room of the event. -/
def updateEvent (db : DB) (callerUserId : UserId) (eid : EventId) (p : EventPatch) :
    OpResult Event :=
  match findE db eid with
  | none => ⟨Except.error ApiError.NotFound, db, []⟩
  | some event =>
    if event.creatorId ≠ callerUserId then
      ⟨Except.error ApiError.Forbidden, db, []⟩
    else
      let updated := applyPatch event p
      ⟨Except.ok updated, saveE db updated,
        [⟨Scope.room eid, "eventUpdated", Payload.event updated⟩]⟩

/-- `router.delete("/:id")`: 404 if absent, 403 if the caller is not the
creator, else delete the row (the attendee relation rows go with it) and
`io.emit("eventDeleted", req.params.id)` globally with only the id. -/
def deleteEvent (db : DB) (callerUserId : UserId) (eid : EventId) : OpResult Unit :=
  match findE db eid with
  | none => ⟨Except.error ApiError.NotFound, db, []⟩
  | some event =>
    if event.creatorId ≠ callerUserId then
      ⟨Except.error ApiError.Forbidden, db, []⟩
    else
      ⟨Except.ok (), List.filter (fun e => decide (e.id ≠ eid)) db,
        [⟨Scope.global, "eventDeleted", Payload.id eid⟩]⟩

/-- `router.post("/:id/join")`: 404 if absent; 400 "Already joined" when
`event.attendees.some(a => a.id === req.userId)`, checked before any write;
else connect the caller to the attendee relation and emit `eventUpdated` to
the room of the event. -/
def joinEvent (db : DB) (callerUserId : UserId) (eid : EventId) : OpResult Event :=
  match findE db eid with
  | none => ⟨Except.error ApiError.NotFound, db, []⟩
  | some event =>
    if callerUserId ∈ event.attendees then
      ⟨Except.error ApiError.AlreadyMember, db, []⟩
    else
      let updated := { event with attendees := event.attendees ++ [callerUserId] }
      ⟨Except.ok updated, saveE db updated,
        [⟨Scope.room eid, "eventUpdated", Payload.event updated⟩]⟩

/-- The row as stored after a leave by `u`: the attendee relation rows whose
user id equals `u` are disconnected, everything else is untouched. -/
def leftEvent (e : Event) (u : UserId) : Event :=
  { e with attendees := List.filter (fun a => decide (a ≠ u)) e.attendees }

/-- `router.post("/:id/leave")`: no existence or membership pre-check.  The
single `prisma.event.update` with `attendees: { disconnect: ... }` removes the
relation row when present and is a no-op on the relation otherwise; when the
event id itself does not exist the update throws, `next(error)` forwards it,
and the Express default error handler answers 500 — modelled as `Internal`. -/
def leaveEvent (db : DB) (callerUserId : UserId) (eid : EventId) : OpResult Event :=
  match findE db eid with
  | none => ⟨Except.error ApiError.Internal, db, []⟩
  | some event =>
    let updated := leftEvent event callerUserId
    ⟨Except.ok updated, saveE db updated,
      [⟨Scope.room eid, "eventUpdated", Payload.event updated⟩]⟩

/-- JS `String.prototype.toLowerCase` on the ASCII range: every character is
lower-cased independently. -/
def toLowerStr (s : String) : String := ⟨s.data.map Char.toLower⟩

/-- JS `String.prototype.trim`: whitespace is removed from both ends. -/
def trimStr (s : String) : String :=
  ⟨((s.data.dropWhile Char.isWhitespace).reverse.dropWhile Char.isWhitespace).reverse⟩

/-- `querySchema`: `category: z.string().trim().min(1).toLowerCase().optional()` —
the raw query value is trimmed and then lower-cased while parsing the request. -/
def parseCategoryFilter (raw : String) : String := toLowerStr (trimStr raw)

/-- The `where` clause of `GET /` restricted to the conjuncts the claims are
about: `category ? { category } : {}` is exact equality against the stored
category column, and the date conjuncts are inclusive bounds.  (The free-text
search conjunct is not modelled; no claim concerns it.) -/
def whereMatches (category : Option String) (startDate endDate : Option Nat) (e : Event) :
    Bool :=
  (match category with
   | none => true
   | some c => decide (e.category = c)) &&
  (match startDate with
   | none => true
   | some s => decide (s ≤ e.date)) &&
  (match endDate with
   | none => true
   | some t => decide (e.date ≤ t))

/-- `Math.ceil(total / limit)` computed over exact rationals. -/
def totalPagesOf (total limit : Nat) : Nat :=
  (Int.toNat ⌈(total : ℚ) / (limit : ℚ)⌉)

/-- The `pagination` object of the `GET /` response. -/
structure PaginationMeta where
  currentPage : Nat
  totalPages : Nat
  totalEvents : Nat
  hasNextPage : Bool
  hasPrevPage : Bool
  limit : Nat
deriving Repr, DecidableEq

/-- The metadata block built after the count+list transaction:
`totalPages = Math.ceil(total / limit)`, `hasNextPage: page < totalPages`,
`hasPrevPage: page > 1`. -/
def paginationMeta (total page limit : Nat) : PaginationMeta :=
  { currentPage := page
    totalPages := totalPagesOf total limit
    totalEvents := total
    hasNextPage := decide (page < totalPagesOf total limit)
    hasPrevPage := decide (1 < page)
    limit := limit }

/-- The `skip` argument of the listing query: `(page - 1) * limit`. -/
def skipOf (page limit : Nat) : Nat := (page - 1) * limit

/-! ### Helper lemmas about the store -/

/-- A row returned by the point lookup carries the looked-up id. -/
lemma findE_id {db : DB} {eid : EventId} {e : Event} (h : findE db eid = some e) :
    e.id = eid := by
  induction db with
  | nil => simp [findE] at h
  | cons x xs ih =>
    by_cases hx : x.id = eid
    · simp [findE, hx] at h
      rw [← h]; exact hx
    · simp [findE, hx] at h
      exact ih h

/-- Persisting a row and looking its id up again returns exactly that row,
provided some row with that id was already stored. -/
lemma findE_saveE {db : DB} {eid : EventId} (e : Event) (h : e.id = eid) :
    findE (saveE db e) eid = (findE db eid).map (fun _ => e) := by
  induction db with
  | nil => simp [findE, saveE]
  | cons x xs ih =>
    by_cases hx : x.id = e.id
    · simp [findE, saveE, hx, h, ← hx]
    · have hx2 : x.id ≠ eid := by rw [← h] at *; exact hx
      simp [findE, saveE, hx, hx2, ih]

/-- Appending rows after a miss continues the lookup in the appended rows. -/
lemma findE_append_of_none {db : DB} {eid : EventId} (h : findE db eid = none)
    (ys : DB) : findE (db ++ ys) eid = findE ys eid := by
  induction db with
  | nil => simp
  | cons x xs ih =>
    by_cases hx : x.id = eid
    · simp [findE, hx] at h
    · simp [findE, hx] at h ⊢
      exact ih h

/-- Removing an element that is not there is a no-op. -/
lemma filter_ne_of_not_mem {l : List UserId} {u : UserId} (h : u ∉ l) :
    List.filter (fun a => decide (a ≠ u)) l = l := by
  rw [List.filter_eq_self]
  intro a ha
  simp only [decide_eq_true_eq]
  exact fun heq => h (heq ▸ ha)

/-- The removed element is gone from the filtered list. -/
lemma not_mem_filter_ne (l : List UserId) (u : UserId) :
    u ∉ List.filter (fun a => decide (a ≠ u)) l := by
  intro hmem
  have := List.of_mem_filter hmem
  simp at this

/-- Evaluation of the join route on an existing event the caller is in. -/
lemma joinEvent_of_member {db : DB} {u : UserId} {eid : EventId} {e : Event}
    (he : findE db eid = some e) (hmem : u ∈ e.attendees) :
    joinEvent db u eid = ⟨Except.error ApiError.AlreadyMember, db, []⟩ := by
  simp [joinEvent, he, hmem]

/-- Evaluation of the join route on an existing event the caller is not in. -/
lemma joinEvent_of_not_member {db : DB} {u : UserId} {eid : EventId} {e : Event}
    (he : findE db eid = some e) (hmem : u ∉ e.attendees) :
    joinEvent db u eid =
      ⟨Except.ok { e with attendees := e.attendees ++ [u] },
        saveE db { e with attendees := e.attendees ++ [u] },
        [⟨Scope.room eid, "eventUpdated",
          Payload.event { e with attendees := e.attendees ++ [u] }⟩]⟩ := by
  simp [joinEvent, he, hmem]

/-! ### Concrete fixtures used by witnesses and counterexamples -/

/-- A concrete stored event: created by alice, with bob already an attendee. -/
def wEvent : Event :=
  { id := "e1", title := "Meetup", description := "d", date := 5,
    location := "loc", category := "music", coverUrl := "u", imagesUrl := [],
    creatorId := "alice", attendees := ["bob"] }

/-- A concrete store holding just `wEvent`. -/
def wDB : DB := [wEvent]

/-! ### Claims -/

/-- C1: join fails with AlreadyMember (before any mutation, store unchanged)
when the caller is already an attendee; a non-member join succeeds and adds
the caller exactly once, and a second join by the same caller then fails with
AlreadyMember leaving the store unchanged, so exactly one entry remains. -/
theorem C1_join_semantics (db : DB) (u : UserId) (eid : EventId) (e : Event)
    (he : findE db eid = some e) :
    (u ∈ e.attendees →
        (joinEvent db u eid).res = Except.error ApiError.AlreadyMember ∧
        (joinEvent db u eid).db = db) ∧
    (u ∉ e.attendees →
        ∃ ev, (joinEvent db u eid).res = Except.ok ev ∧
          ev.attendees = e.attendees ++ [u] ∧
          ev.attendees.count u = 1 ∧
          findE (joinEvent db u eid).db eid = some ev ∧
          (joinEvent (joinEvent db u eid).db u eid).res =
            Except.error ApiError.AlreadyMember ∧
          (joinEvent (joinEvent db u eid).db u eid).db = (joinEvent db u eid).db) := by
  constructor
  · intro hmem
    rw [joinEvent_of_member he hmem]
    exact ⟨rfl, rfl⟩
  · intro hmem
    have hid0 : e.id = eid := findE_id he
    have hid : ({ e with attendees := e.attendees ++ [u] } : Event).id = eid := hid0
    have h1 := joinEvent_of_not_member he hmem
    have hfind2 : findE (saveE db { e with attendees := e.attendees ++ [u] }) eid =
        some { e with attendees := e.attendees ++ [u] } := by
      rw [findE_saveE _ hid, he]
      rfl
    have hmem2 : u ∈ ({ e with attendees := e.attendees ++ [u] } : Event).attendees := by
      simp
    refine ⟨{ e with attendees := e.attendees ++ [u] }, ?_, rfl, ?_, ?_, ?_, ?_⟩
    · rw [h1]
    · show (e.attendees ++ [u]).count u = 1
      rw [List.count_append, List.count_eq_zero.mpr hmem]
      simp
    · rw [h1]
      exact hfind2
    · rw [h1]
      show (joinEvent (saveE db { e with attendees := e.attendees ++ [u] }) u eid).res = _
      rw [joinEvent_of_member hfind2 hmem2]
    · rw [h1]
      show (joinEvent (saveE db { e with attendees := e.attendees ++ [u] }) u eid).db = _
      rw [joinEvent_of_member hfind2 hmem2]

/-- C1 witness: in the concrete store, bob (already an attendee) is rejected
with AlreadyMember and the store is untouched; carol joins once successfully,
ends up with exactly one entry, and her second join is rejected. -/
theorem C1_join_semantics_witness :
    ((joinEvent wDB "bob" "e1").res = Except.error ApiError.AlreadyMember ∧
      (joinEvent wDB "bob" "e1").db = wDB) ∧
    (∃ ev, (joinEvent wDB "carol" "e1").res = Except.ok ev ∧
      ev.attendees = wEvent.attendees ++ ["carol"] ∧
      ev.attendees.count "carol" = 1 ∧
      findE (joinEvent wDB "carol" "e1").db "e1" = some ev ∧
      (joinEvent (joinEvent wDB "carol" "e1").db "carol" "e1").res =
        Except.error ApiError.AlreadyMember ∧
      (joinEvent (joinEvent wDB "carol" "e1").db "carol" "e1").db =
        (joinEvent wDB "carol" "e1").db) :=
  ⟨(C1_join_semantics wDB "bob" "e1" wEvent (by decide)).1 (by decide),
   (C1_join_semantics wDB "carol" "e1" wEvent (by decide)).2 (by decide)⟩

/-- C2: an update attempt by any authenticated caller other than the creator
of an existing event answers Forbidden, stores nothing and emits nothing. -/
theorem C2_update_forbidden (db : DB) (caller : UserId) (eid : EventId)
    (p : EventPatch) (e : Event)
    (he : findE db eid = some e) (hne : e.creatorId ≠ caller) :
    (updateEvent db caller eid p).res = Except.error ApiError.Forbidden ∧
    (updateEvent db caller eid p).db = db ∧
    (updateEvent db caller eid p).emits = [] := by
  refine ⟨?_, ?_, ?_⟩ <;> simp [updateEvent, he, hne]

/-- C2 witness: mallory (not the creator alice) tries to update the stored
event and is rejected with Forbidden; store and emit list are unchanged. -/
theorem C2_update_forbidden_witness :
    (updateEvent wDB "mallory" "e1" {}).res = Except.error ApiError.Forbidden ∧
    (updateEvent wDB "mallory" "e1" {}).db = wDB ∧
    (updateEvent wDB "mallory" "e1" {}).emits = [] :=
  C2_update_forbidden wDB "mallory" "e1" {} wEvent (by decide) (by decide)

/-- C8: for update and delete, a missing event answers NotFound whoever the
caller is, and a Forbidden answer can only arise once an event with that id
was found and its creator differs from the caller — NotFound takes precedence
over Forbidden. -/
theorem C8_notfound_before_forbidden (db : DB) (caller : UserId) (eid : EventId)
    (p : EventPatch) :
    (findE db eid = none →
        (updateEvent db caller eid p).res = Except.error ApiError.NotFound ∧
        (deleteEvent db caller eid).res = Except.error ApiError.NotFound) ∧
    ((updateEvent db caller eid p).res = Except.error ApiError.Forbidden →
        ∃ e, findE db eid = some e ∧ e.creatorId ≠ caller) ∧
    ((deleteEvent db caller eid).res = Except.error ApiError.Forbidden →
        ∃ e, findE db eid = some e ∧ e.creatorId ≠ caller) := by
  refine ⟨fun h => by constructor <;> simp [updateEvent, deleteEvent, h], ?_, ?_⟩
  · intro h
    cases hfind : findE db eid with
    | none => simp [updateEvent, hfind] at h
    | some e =>
      by_cases hc : e.creatorId = caller
      · simp [updateEvent, hfind, hc] at h
      · exact ⟨e, rfl, hc⟩
  · intro h
    cases hfind : findE db eid with
    | none => simp [deleteEvent, hfind] at h
    | some e =>
      by_cases hc : e.creatorId = caller
      · simp [deleteEvent, hfind, hc] at h
      · exact ⟨e, rfl, hc⟩

/-- C8 witness: on an empty store both update and delete answer NotFound for
any caller, and in the concrete store a Forbidden update pinpoints an existing
event whose creator differs from the caller. -/
theorem C8_notfound_before_forbidden_witness :
    ((updateEvent [] "alice" "e1" {}).res = Except.error ApiError.NotFound ∧
      (deleteEvent [] "alice" "e1").res = Except.error ApiError.NotFound) ∧
    (∃ e, findE wDB "e1" = some e ∧ e.creatorId ≠ "mallory") :=
  ⟨(C8_notfound_before_forbidden [] "alice" "e1" {}).1 (by decide),
   (C8_notfound_before_forbidden wDB "mallory" "e1" {}).2.1 (by rfl)⟩

/-- Evaluation of the leave route on an existing event. -/
lemma leaveEvent_of_found {db : DB} {u : UserId} {eid : EventId} {e : Event}
    (he : findE db eid = some e) :
    leaveEvent db u eid =
      ⟨Except.ok (leftEvent e u), saveE db (leftEvent e u),
        [⟨Scope.room eid, "eventUpdated", Payload.event (leftEvent e u)⟩]⟩ := by
  simp [leaveEvent, he]

/-- Leaving as a non-member rewrites nothing. -/
lemma leftEvent_of_not_mem {e : Event} {u : UserId} (h : u ∉ e.attendees) :
    leftEvent e u = e := by
  show ({ e with attendees := List.filter (fun a => decide (a ≠ u)) e.attendees } : Event) = e
  rw [filter_ne_of_not_mem h]

/-- Leaving twice rewrites the row the same way as leaving once. -/
lemma leftEvent_idem (e : Event) (u : UserId) :
    leftEvent (leftEvent e u) u = leftEvent e u := by
  show ({ e with attendees := (List.filter (fun a => decide (a ≠ u)) (List.filter (fun a => decide (a ≠ u)) e.attendees)) } : Event) = _
  rw [filter_ne_of_not_mem (not_mem_filter_ne e.attendees u)]
  rfl

/-- Evaluation of the update route when the caller is the creator. -/
lemma updateEvent_of_creator {db : DB} {caller : UserId} {eid : EventId} {e : Event}
    (p : EventPatch) (he : findE db eid = some e) (hc : e.creatorId = caller) :
    updateEvent db caller eid p =
      ⟨Except.ok (applyPatch e p), saveE db (applyPatch e p),
        [⟨Scope.room eid, "eventUpdated", Payload.event (applyPatch e p)⟩]⟩ := by
  simp [updateEvent, he, hc]

/-- C6: leaving an existing event as a non-member answers success with the
attendee set untouched, and in general running leave twice leaves the same
stored row as running it once — leave is idempotent in effect. -/
theorem C6_leave_idempotent (db : DB) (caller : UserId) (eid : EventId) (e : Event)
    (he : findE db eid = some e) :
    (caller ∉ e.attendees →
        (leaveEvent db caller eid).res = Except.ok e ∧
        findE (leaveEvent db caller eid).db eid = some e) ∧
    (∃ ev, (leaveEvent db caller eid).res = Except.ok ev ∧
        findE (leaveEvent db caller eid).db eid = some ev ∧
        (leaveEvent (leaveEvent db caller eid).db caller eid).res = Except.ok ev ∧
        findE (leaveEvent (leaveEvent db caller eid).db caller eid).db eid = some ev) := by
  have hid0 : e.id = eid := findE_id he
  have h1 := leaveEvent_of_found (u := caller) he
  constructor
  · intro hmem
    constructor
    · rw [h1, leftEvent_of_not_mem hmem]
    · rw [h1]
      show findE (saveE db (leftEvent e caller)) eid = some e
      rw [leftEvent_of_not_mem hmem, findE_saveE e hid0, he]
      rfl
  · have hid : (leftEvent e caller).id = eid := hid0
    have hfind2 : findE (saveE db (leftEvent e caller)) eid = some (leftEvent e caller) := by
      rw [findE_saveE _ hid, he]
      rfl
    have h2 := leaveEvent_of_found (u := caller) hfind2
    refine ⟨leftEvent e caller, ?_, ?_, ?_, ?_⟩
    · rw [h1]
    · rw [h1]
      exact hfind2
    · rw [h1]
      show (leaveEvent (saveE db (leftEvent e caller)) caller eid).res = _
      rw [h2, leftEvent_idem]
    · rw [h1]
      show findE (leaveEvent (saveE db (leftEvent e caller)) caller eid).db eid = _
      rw [h2]
      show findE (saveE (saveE db (leftEvent e caller))
        (leftEvent (leftEvent e caller) caller)) eid = _
      rw [leftEvent_idem, findE_saveE _ hid, hfind2]
      rfl

/-- C6 witness: carol (not an attendee) leaves the concrete event without an
error and the stored row keeps its attendee; and leaving as bob twice stores
the same row as leaving once. -/
theorem C6_leave_idempotent_witness :
    ((leaveEvent wDB "carol" "e1").res = Except.ok wEvent ∧
      findE (leaveEvent wDB "carol" "e1").db "e1" = some wEvent) ∧
    (∃ ev, (leaveEvent wDB "bob" "e1").res = Except.ok ev ∧
      findE (leaveEvent wDB "bob" "e1").db "e1" = some ev ∧
      (leaveEvent (leaveEvent wDB "bob" "e1").db "bob" "e1").res = Except.ok ev ∧
      findE (leaveEvent (leaveEvent wDB "bob" "e1").db "bob" "e1").db "e1" = some ev) :=
  ⟨(C6_leave_idempotent wDB "carol" "e1" wEvent (by decide)).1 (by decide),
   (C6_leave_idempotent wDB "bob" "e1" wEvent (by decide)).2⟩

/-- C7: an update by the creator answers the row in which exactly the present
patch fields take their new values, every absent field keeps its stored value,
and id, creator and attendee set are untouched; that row is what the store
then holds for the event id. -/
theorem C7_partial_update_frame (db : DB) (caller : UserId) (eid : EventId)
    (p : EventPatch) (e : Event)
    (he : findE db eid = some e) (hc : e.creatorId = caller) :
    ∃ ev, (updateEvent db caller eid p).res = Except.ok ev ∧
      ev.title = p.title.getD e.title ∧
      ev.description = p.description.getD e.description ∧
      ev.date = p.date.getD e.date ∧
      ev.location = p.location.getD e.location ∧
      ev.category = p.category.getD e.category ∧
      ev.coverUrl = p.coverUrl.getD e.coverUrl ∧
      ev.imagesUrl = p.imagesUrl.getD e.imagesUrl ∧
      ev.id = e.id ∧
      ev.creatorId = e.creatorId ∧
      ev.attendees = e.attendees ∧
      findE (updateEvent db caller eid p).db eid = some ev := by
  have hid0 : e.id = eid := findE_id he
  have hid : (applyPatch e p).id = eid := hid0
  have h1 := updateEvent_of_creator p he hc
  refine ⟨applyPatch e p, ?_, rfl, rfl, rfl, rfl, rfl, rfl, rfl, rfl, rfl, rfl, ?_⟩
  · rw [h1]
  · rw [h1]
    show findE (saveE db (applyPatch e p)) eid = _
    rw [findE_saveE _ hid, he]
    rfl

/-- The patch of the spec scenario: only the location field is present. -/
def wPatch : EventPatch := { location := some "Berlin" }

/-- C7 witness: alice updates only the location of her concrete event; all the
other fields, the creator and the attendee list keep their stored values. -/
theorem C7_partial_update_frame_witness :
    ∃ ev, (updateEvent wDB "alice" "e1" wPatch).res = Except.ok ev ∧
      ev.title = wPatch.title.getD wEvent.title ∧
      ev.description = wPatch.description.getD wEvent.description ∧
      ev.date = wPatch.date.getD wEvent.date ∧
      ev.location = wPatch.location.getD wEvent.location ∧
      ev.category = wPatch.category.getD wEvent.category ∧
      ev.coverUrl = wPatch.coverUrl.getD wEvent.coverUrl ∧
      ev.imagesUrl = wPatch.imagesUrl.getD wEvent.imagesUrl ∧
      ev.id = wEvent.id ∧
      ev.creatorId = wEvent.creatorId ∧
      ev.attendees = wEvent.attendees ∧
      findE (updateEvent wDB "alice" "e1" wPatch).db "e1" = some ev :=
  C7_partial_update_frame wDB "alice" "e1" wPatch wEvent (by decide) (by decide)

/-- C10: leaving a nonexistent event is neither a NotFound answer nor a
success: the missing-id update throws and is surfaced by the generic error
path as Internal, with the store untouched and nothing emitted. -/
theorem C10_leave_missing (db : DB) (caller : UserId) (eid : EventId)
    (h : findE db eid = none) :
    (leaveEvent db caller eid).res = Except.error ApiError.Internal ∧
    (leaveEvent db caller eid).res ≠ Except.error ApiError.NotFound ∧
    (∀ ev, (leaveEvent db caller eid).res ≠ Except.ok ev) ∧
    (leaveEvent db caller eid).db = db ∧
    (leaveEvent db caller eid).emits = [] := by
  have h1 : leaveEvent db caller eid = ⟨Except.error ApiError.Internal, db, []⟩ := by
    simp [leaveEvent, h]
  rw [h1]
  exact ⟨rfl, by simp, fun ev => by simp, rfl, rfl⟩

/-- C10 witness: leaving an id that is not in the concrete store answers
Internal — not NotFound, not success — and changes nothing. -/
theorem C10_leave_missing_witness :
    (leaveEvent wDB "bob" "nope").res = Except.error ApiError.Internal ∧
    (leaveEvent wDB "bob" "nope").res ≠ Except.error ApiError.NotFound ∧
    (∀ ev, (leaveEvent wDB "bob" "nope").res ≠ Except.ok ev) ∧
    (leaveEvent wDB "bob" "nope").db = wDB ∧
    (leaveEvent wDB "bob" "nope").emits = [] :=
  C10_leave_missing wDB "bob" "nope" (by decide)

/-- A valid create body used by witnesses. -/
def wData : EventData :=
  { title := "T", description := "D", date := 7, location := "L", category := "c",
    coverUrl := "u", imagesUrl := [] }

/-- C9: a valid create by an authenticated caller stores an event whose
creator is the caller and whose attendee set is empty, and emits one global
newEvent broadcast whose payload is exactly the persisted event. -/
theorem C9_create_postcondition (db : DB) (caller : UserId) (newId : EventId)
    (d : EventData) (hfresh : findE db newId = none) :
    ∃ e, (createEvent db caller newId d).res = Except.ok e ∧
      e.creatorId = caller ∧
      e.attendees = [] ∧
      (createEvent db caller newId d).emits =
        [⟨Scope.global, "newEvent", Payload.event e⟩] ∧
      findE (createEvent db caller newId d).db newId = some e := by
  refine ⟨newEventRecord caller newId d, rfl, rfl, rfl, rfl, ?_⟩
  show findE (db ++ [newEventRecord caller newId d]) newId = _
  rw [findE_append_of_none hfresh]
  simp [findE, newEventRecord]

/-- C9 witness: carol creates an event with a fresh id in the concrete store;
the stored row has her as creator, no attendees, and the global newEvent
broadcast carries that row. -/
theorem C9_create_postcondition_witness :
    ∃ e, (createEvent wDB "carol" "e2" wData).res = Except.ok e ∧
      e.creatorId = "carol" ∧
      e.attendees = [] ∧
      (createEvent wDB "carol" "e2" wData).emits =
        [⟨Scope.global, "newEvent", Payload.event e⟩] ∧
      findE (createEvent wDB "carol" "e2" wData).db "e2" = some e :=
  C9_create_postcondition wDB "carol" "e2" wData (by decide)

/-- C4: create and delete emit exactly one global broadcast (newEvent with the
created row; eventDeleted with only the id), every successful update, join or
leave emits exactly one eventUpdated broadcast scoped to the room of that
event, a global broadcast is delivered to every connected client, and a
room-scoped broadcast is delivered to exactly the clients that subscribed to
that room, which is what the joinEvent socket request does. -/
theorem C4_broadcast_scoping :
    (∀ (db : DB) (u : UserId) (nid : EventId) (d : EventData),
        (createEvent db u nid d).emits =
          [⟨Scope.global, "newEvent", Payload.event (newEventRecord u nid d)⟩]) ∧
    (∀ (db : DB) (u : UserId) (eid : EventId),
        (deleteEvent db u eid).res = Except.ok () →
          (deleteEvent db u eid).emits =
            [⟨Scope.global, "eventDeleted", Payload.id eid⟩]) ∧
    (∀ (db : DB) (u : UserId) (eid : EventId) (p : EventPatch) (ev : Event),
        (updateEvent db u eid p).res = Except.ok ev →
          (updateEvent db u eid p).emits =
            [⟨Scope.room eid, "eventUpdated", Payload.event ev⟩]) ∧
    (∀ (db : DB) (u : UserId) (eid : EventId) (ev : Event),
        (joinEvent db u eid).res = Except.ok ev →
          (joinEvent db u eid).emits =
            [⟨Scope.room eid, "eventUpdated", Payload.event ev⟩]) ∧
    (∀ (db : DB) (u : UserId) (eid : EventId) (ev : Event),
        (leaveEvent db u eid).res = Except.ok ev →
          (leaveEvent db u eid).emits =
            [⟨Scope.room eid, "eventUpdated", Payload.event ev⟩]) ∧
    (∀ (c : Client) (nm : String) (pl : Payload),
        deliveredTo c ⟨Scope.global, nm, pl⟩ = true) ∧
    (∀ (c : Client) (eid : EventId) (nm : String) (pl : Payload),
        (deliveredTo c ⟨Scope.room eid, nm, pl⟩ = true ↔ roomName eid ∈ c.rooms)) ∧
    (∀ (c : Client) (eid : EventId) (nm : String) (pl : Payload),
        deliveredTo (handleJoinEvent c eid) ⟨Scope.room eid, nm, pl⟩ = true) := by
  refine ⟨fun db u nid d => rfl, ?_, ?_, ?_, ?_, fun c nm pl => rfl, ?_, ?_⟩
  · intro db u eid h
    cases hfind : findE db eid with
    | none => simp [deleteEvent, hfind] at h
    | some e =>
      by_cases hc : e.creatorId = u
      · simp [deleteEvent, hfind, hc]
      · simp [deleteEvent, hfind, hc] at h
  · intro db u eid p ev h
    cases hfind : findE db eid with
    | none => simp [updateEvent, hfind] at h
    | some e =>
      by_cases hc : e.creatorId = u
      · rw [updateEvent_of_creator p hfind hc] at h ⊢
        simp only [Except.ok.injEq] at h
        simp [h]
      · simp [updateEvent, hfind, hc] at h
  · intro db u eid ev h
    cases hfind : findE db eid with
    | none => simp [joinEvent, hfind] at h
    | some e =>
      by_cases hm : u ∈ e.attendees
      · rw [joinEvent_of_member hfind hm] at h
        simp at h
      · rw [joinEvent_of_not_member hfind hm] at h ⊢
        simp only [Except.ok.injEq] at h
        simp [h]
  · intro db u eid ev h
    cases hfind : findE db eid with
    | none => simp [leaveEvent, hfind] at h
    | some e =>
      rw [leaveEvent_of_found hfind] at h ⊢
      simp only [Except.ok.injEq] at h
      simp [h]
  · intro c eid nm pl
    simp [deliveredTo]
  · intro c eid nm pl
    simp [deliveredTo, handleJoinEvent, roomName]

/-- C4 witness: deleting the concrete event emits one global eventDeleted with
only the id; a successful join emits one room-scoped eventUpdated; a freshly
subscribed client receives broadcasts for that room. -/
theorem C4_broadcast_scoping_witness :
    (deleteEvent wDB "alice" "e1").emits =
      [⟨Scope.global, "eventDeleted", Payload.id "e1"⟩] ∧
    (joinEvent wDB "carol" "e1").emits =
      [⟨Scope.room "e1", "eventUpdated",
        Payload.event { wEvent with attendees := wEvent.attendees ++ ["carol"] }⟩] ∧
    deliveredTo (handleJoinEvent ⟨[]⟩ "e1") ⟨Scope.room "e1", "eventUpdated", Payload.id "e1"⟩ =
      true :=
  ⟨C4_broadcast_scoping.2.1 wDB "alice" "e1" (by rfl),
   C4_broadcast_scoping.2.2.2.1 wDB "carol" "e1"
     { wEvent with attendees := wEvent.attendees ++ ["carol"] } (by rfl),
   C4_broadcast_scoping.2.2.2.2.2.2.2 ⟨[]⟩ "e1" "eventUpdated" (Payload.id "e1")⟩

/-- A stored event whose category was entered with a capital letter. -/
def wMusicEvent : Event :=
  { id := "e3", title := "Concert", description := "d", date := 3,
    location := "loc", category := "Music", coverUrl := "u", imagesUrl := [],
    creatorId := "alice", attendees := [] }

/-- C3 counterexample: the stored category "Music" differs from the filter
value "music" only in letter case, yet the where clause does not match the
event — only the query side is lower-cased, the stored column is compared
exactly, so the claimed case-insensitive category match is false on the code. -/
theorem C3_counterexample :
    whereMatches (some (parseCategoryFilter "music")) none none wMusicEvent = false := by
  decide

/-- C3 amended: category filtering lower-cases (and trims) only the query
value; the stored category is then compared exactly, so a category filter
matches precisely the events whose stored category equals the trimmed,
lower-cased filter value. -/
theorem C3_category_filter_one_sided (raw : String) (e : Event) :
    (whereMatches (some (parseCategoryFilter raw)) none none e = true ↔
      e.category = toLowerStr (trimStr raw)) := by
  simp [whereMatches, parseCategoryFilter]

/-- The arithmetic core of the pagination bounds: the remainder identity of
division by the page size pins the ceiling between the two linear bounds. -/
lemma totalPagesOf_bounds_aux (total limit : Nat) (h : 1 ≤ limit) :
    total ≤ limit * ((total + limit - 1) / limit) ∧
    limit * ((total + limit - 1) / limit) < total + limit := by
  have key : ∀ M r : Nat, M + r = total + limit - 1 → r < limit →
      total ≤ M ∧ M < total + limit := by
    intro M r hmr hr
    omega
  exact key (limit * ((total + limit - 1) / limit)) ((total + limit - 1) % limit)
    (Nat.div_add_mod (total + limit - 1) limit)
    (Nat.mod_lt _ (by omega))

/-- `Math.ceil(total / limit)` agrees with natural-number ceiling division. -/
lemma totalPagesOf_eq (total limit : Nat) (h : 1 ≤ limit) :
    totalPagesOf total limit = (total + limit - 1) / limit := by
  have hb := totalPagesOf_bounds_aux total limit h
  have hl0 : (0 : ℚ) < (limit : ℚ) := by
    exact_mod_cast Nat.lt_of_lt_of_le Nat.zero_lt_one h
  have h1q : (total : ℚ) ≤ (limit : ℚ) * ((((total + limit - 1) / limit : ℕ)) : ℚ) := by
    exact_mod_cast hb.1
  have h2q : (limit : ℚ) * ((((total + limit - 1) / limit : ℕ)) : ℚ) <
      (total : ℚ) + (limit : ℚ) := by
    exact_mod_cast hb.2
  have hceil : ⌈(total : ℚ) / (limit : ℚ)⌉ = (((total + limit - 1) / limit : ℕ) : ℤ) := by
    rw [Int.ceil_eq_iff]
    constructor
    · rw [lt_div_iff₀ hl0, Int.cast_natCast]
      linarith
    · rw [div_le_iff₀ hl0, Int.cast_natCast]
      linarith
  show Int.toNat ⌈(total : ℚ) / (limit : ℚ)⌉ = (total + limit - 1) / limit
  rw [hceil]
  rfl

/-- C5: for page sizes between 1 and 100 and pages from 1, the reported
totalPages is the ceiling of total over limit — it satisfies the two bounds
that characterize the ceiling and equals the usual ceiling-division formula —
hasNextPage holds exactly when the page is below totalPages, and hasPrevPage
exactly when the page is above 1. -/
theorem C5_pagination (total page limit : Nat)
    (h1 : 1 ≤ limit) (h2 : limit ≤ 100) (hp : 1 ≤ page) :
    (paginationMeta total page limit).totalPages = (total + limit - 1) / limit ∧
    total ≤ limit * (paginationMeta total page limit).totalPages ∧
    limit * (paginationMeta total page limit).totalPages < total + limit ∧
    ((paginationMeta total page limit).hasNextPage = true ↔
      page < (paginationMeta total page limit).totalPages) ∧
    ((paginationMeta total page limit).hasPrevPage = true ↔ 1 < page) := by
  have heq : (paginationMeta total page limit).totalPages = (total + limit - 1) / limit :=
    totalPagesOf_eq total limit h1
  have hb := totalPagesOf_bounds_aux total limit h1
  refine ⟨heq, ?_, ?_, ?_, ?_⟩
  · rw [heq]
    exact hb.1
  · rw [heq]
    exact hb.2
  · show decide (page < totalPagesOf total limit) = true ↔ _
    simp [paginationMeta]
  · show decide (1 < page) = true ↔ _
    simp

/-- C5 witness: five matching events at page size two report three pages;
from page two there is a next page and a previous page. -/
theorem C5_pagination_witness :
    (paginationMeta 5 2 2).totalPages = (5 + 2 - 1) / 2 ∧
    5 ≤ 2 * (paginationMeta 5 2 2).totalPages ∧
    2 * (paginationMeta 5 2 2).totalPages < 5 + 2 ∧
    ((paginationMeta 5 2 2).hasNextPage = true ↔ 2 < (paginationMeta 5 2 2).totalPages) ∧
    ((paginationMeta 5 2 2).hasPrevPage = true ↔ 1 < 2) :=
  C5_pagination 5 2 2 (by decide) (by decide) (by decide)

end EventPlanner
